import Mathlib

/-
Verification of the InkyPi playlist scheduling model (src/model.py).

The embedding models times of day as microseconds since midnight (Nat),
datetimes as a day number plus a time of day, and translates the Python
classes PluginInstance, Playlist and PlaylistManager into Lean structures
with their methods as pure functions.  Python exceptions are modelled by
Option results (none = the method raises).
-/

set_option maxRecDepth 2000

namespace InkyPi

/-- Microseconds in one minute. -/
def microsPerMinute : Nat := 60000000

/-- Microseconds in one hour. -/
def microsPerHour : Nat := 3600000000

/-- Microseconds in one day. -/
def microsPerDay : Nat := 86400000000

/-- The time value 23:59:59.999999 in microseconds, used by is_active for the
literal end time "24:00" (datetime.time(23, 59, 59, 999999)). -/
def endOfDaySentinel : Nat := 86399999999

/-- Value of a decimal digit character, none for non-digits. -/
def digitVal (c : Char) : Option Nat :=
  if 48 ≤ c.toNat ∧ c.toNat ≤ 57 then some (c.toNat - 48) else none

/-- Hour field of Python strptime "%H": the regex 2[0-3]|[0-1]\d|\d, matched
against a prefix of the character list; returns the hour and the rest. -/
def parseHour : List Char → Option (Nat × List Char)
  | [] => none
  | [c] =>
    match digitVal c with
    | some d => some (d, [])
    | none => none
  | c1 :: c2 :: rest =>
    match digitVal c1, digitVal c2 with
    | some d1, some d2 =>
      if d1 = 2 ∧ d2 ≤ 3 then some (d1 * 10 + d2, rest)
      else if d1 ≤ 1 then some (d1 * 10 + d2, rest)
      else some (d1, c2 :: rest)
    | some d1, none => some (d1, c2 :: rest)
    | none, _ => none

/-- Minute field of Python strptime "%M": the regex [0-5]\d|\d. -/
def parseMinute : List Char → Option (Nat × List Char)
  | [] => none
  | [c] =>
    match digitVal c with
    | some d => some (d, [])
    | none => none
  | c1 :: c2 :: rest =>
    match digitVal c1, digitVal c2 with
    | some d1, some d2 =>
      if d1 ≤ 5 then some (d1 * 10 + d2, rest)
      else some (d1, c2 :: rest)
    | some d1, none => some (d1, c2 :: rest)
    | none, _ => none

/-- Python datetime.strptime(s, "%H:%M").time() as microseconds of day;
none when strptime raises ValueError (including trailing unconverted data). -/
def parseHHMM (s : String) : Option Nat :=
  match parseHour s.data with
  | some (h, c :: rest) =>
    if c = ':' then
      match parseMinute rest with
      | some (m, []) => some ((h * 60 + m) * microsPerMinute)
      | _ => none
    else none
  | _ => none

/-- Two-digit zero padding, as produced by strftime for %H and %M. -/
def pad2 (n : Nat) : String :=
  if n < 10 then "0" ++ toString n else toString n

/-- Python strftime("%H:%M") of a time-of-day value in microseconds. -/
def formatTimeHHMM (tod : Nat) : String :=
  pad2 (tod / microsPerHour) ++ ":" ++ pad2 (tod / microsPerMinute % 60)

/-- Python lexicographic comparison of char lists by code point. -/
def chListLt : List Char → List Char → Bool
  | _, [] => false
  | [], _ :: _ => true
  | a :: as, b :: bs =>
    a.toNat < b.toNat || (a.toNat == b.toNat && chListLt as bs)

/-- Python string `<`: lexicographic by code points. -/
def strLt (a b : String) : Bool :=
  chListLt a.data b.data

/-- A datetime: days since an epoch plus microseconds within the day. -/
structure DT where
  day : Nat
  tod : Nat
deriving DecidableEq, Repr

/-- Absolute microseconds of a datetime, used for datetime comparison and
subtraction. -/
def DT.absMicros (d : DT) : Nat :=
  d.day * microsPerDay + d.tod

/-- Adding a (nonnegative) timedelta in microseconds to a datetime. -/
def DT.addMicros (d : DT) (k : Nat) : DT :=
  let t := d.absMicros + k
  ⟨t / microsPerDay, t % microsPerDay⟩

/-- Opaque plugin settings mapping; the core never interprets it. -/
abbrev Settings := List (String × String)

/-- The refresh sub-dictionary of a plugin instance: an optional interval in
seconds and an optional scheduled "HH:MM" string. -/
structure Refresh where
  interval : Option Int
  scheduled : Option String
deriving DecidableEq, Repr

/-- PluginInstance (model.py line 405): latest_refresh_time is the stored
last-refresh timestamp (none when never refreshed). -/
structure PluginInstance where
  plugin_id : String
  name : String
  settings : Settings
  refresh : Refresh
  latest_refresh_time : Option DT
deriving DecidableEq, Repr

/-- Playlist (model.py line 244). -/
structure Playlist where
  name : String
  start_time : String
  end_time : String
  plugins : List PluginInstance
  current_plugin_index : Option Nat
deriving DecidableEq, Repr

/-- PlaylistManager (model.py line 60), with the resolution cache: the dict
_active_playlist_cache holds at most one key/value pair, and _cache_expiry
is an optional datetime. -/
structure PlaylistManager where
  playlists : List Playlist
  activeCache : Option (String × Option Playlist)
  cacheExpiry : Option DT
deriving DecidableEq, Repr

/-- The serialized shape of a plugin instance (PluginInstance.to_dict). -/
structure PluginInstanceDict where
  plugin_id : String
  name : String
  plugin_settings : Settings
  refresh : Refresh
  latest_refresh_time : Option DT
deriving DecidableEq, Repr

/-- The serialized shape of a playlist (Playlist.to_dict). -/
structure PlaylistDict where
  name : String
  start_time : String
  end_time : String
  plugins : List PluginInstanceDict
  current_plugin_index : Option Nat
deriving DecidableEq, Repr

/-- The serialized shape of a playlist manager (PlaylistManager.to_dict). -/
structure PlaylistManagerDict where
  playlists : List PlaylistDict
deriving DecidableEq, Repr

/-- PluginInstance.to_dict (model.py line 474). -/
def PluginInstance.to_dict (p : PluginInstance) : PluginInstanceDict :=
  ⟨p.plugin_id, p.name, p.settings, p.refresh, p.latest_refresh_time⟩

/-- PluginInstance.from_dict (model.py line 483). -/
def PluginInstance.from_dict (d : PluginInstanceDict) : PluginInstance :=
  ⟨d.plugin_id, d.name, d.plugin_settings, d.refresh, d.latest_refresh_time⟩

/-- Playlist.is_active (model.py line 262): parse the current time, the start
time, and the end time (with "24:00" replaced by 23:59:59.999999); wrap
around midnight when start is after end; any ValueError yields False. -/
def Playlist.is_active (pl : Playlist) (current_time : String) : Bool :=
  match parseHHMM current_time with
  | none => false
  | some current_dt =>
    match parseHHMM pl.start_time with
    | none => false
    | some start_dt =>
      match (if pl.end_time = "24:00" then some endOfDaySentinel
             else parseHHMM pl.end_time) with
      | none => false
      | some end_dt =>
        if end_dt < start_dt then
          decide (start_dt ≤ current_dt) || decide (current_dt < end_dt)
        else
          decide (start_dt ≤ current_dt) && decide (current_dt < end_dt)

/-- Playlist.get_time_range_minutes (model.py line 374): the signed difference
end minus start in minutes, with "24:00" computed as 00:00 of the next day;
none when strptime raises on a malformed time. -/
def Playlist.get_time_range_minutes (pl : Playlist) : Option Int :=
  match parseHHMM pl.start_time with
  | none => none
  | some s =>
    match (if pl.end_time = "24:00" then some microsPerDay
           else parseHHMM pl.end_time) with
    | none => none
    | some e => some (((e : Int) - (s : Int)) / (microsPerMinute : Int))

/-- Playlist.get_priority (model.py line 370). -/
def Playlist.get_priority (pl : Playlist) : Option Int :=
  pl.get_time_range_minutes

/-- Playlist.find_plugin (model.py line 320): first plugin matching both the
plugin id and the instance name. -/
def Playlist.find_plugin (pl : Playlist) (pid nm : String) : Option PluginInstance :=
  pl.plugins.find? (fun p => p.plugin_id == pid && p.name == nm)

/-- Playlist.add_plugin (model.py line 293): append unless the identity key
already exists; returns whether the plugin was added. -/
def Playlist.add_plugin (pl : Playlist) (d : PluginInstanceDict) : Bool × Playlist :=
  match pl.find_plugin d.plugin_id d.name with
  | some _ => (false, pl)
  | none => (true, { pl with plugins := pl.plugins ++ [PluginInstance.from_dict d] })

/-- A partial update of a plugin instance, standing for the dictionary passed
to PluginInstance.update (model.py line 423): absent fields are unchanged. -/
structure PluginUpdate where
  settings : Option Settings
  refresh : Option Refresh
  latest_refresh_time : Option (Option DT)
deriving DecidableEq, Repr

/-- PluginInstance.update (model.py line 423) applied to a partial update. -/
def PluginInstance.update (p : PluginInstance) (u : PluginUpdate) : PluginInstance :=
  { p with
    settings := u.settings.getD p.settings
    refresh := u.refresh.getD p.refresh
    latest_refresh_time := u.latest_refresh_time.getD p.latest_refresh_time }

/-- Apply f to the first plugin matching the identity key, as the in-place
mutation of the object returned by find_plugin does. -/
def updateFirstPlugin (pred : PluginInstance → Bool) (f : PluginInstance → PluginInstance) :
    List PluginInstance → List PluginInstance
  | [] => []
  | p :: rest =>
    if pred p then f p :: rest else p :: updateFirstPlugin pred f rest

/-- Playlist.update_plugin (model.py line 301): update the found plugin in
place; returns whether a plugin was found.  Does not touch any cache. -/
def Playlist.update_plugin (pl : Playlist) (pid nm : String) (u : PluginUpdate) :
    Bool × Playlist :=
  match pl.find_plugin pid nm with
  | some _ =>
    let newPlugins :=
      updateFirstPlugin (fun p => p.plugin_id == pid && p.name == nm)
        (fun p => p.update u) pl.plugins
    (true, { pl with plugins := newPlugins })
  | none => (false, pl)

/-- Playlist.delete_plugin (model.py line 310): remove all plugins matching the
identity key; returns whether anything was removed.  Does not touch any
cache. -/
def Playlist.delete_plugin (pl : Playlist) (pid nm : String) : Bool × Playlist :=
  let remaining := pl.plugins.filter (fun p => !(p.plugin_id == pid && p.name == nm))
  (!(remaining.length == pl.plugins.length), { pl with plugins := remaining })

/-- Playlist.get_next_plugin (model.py line 324): advance the index (0 when
unset, otherwise plus one modulo the length) and return that plugin; none
models the IndexError / ZeroDivisionError on an empty plugin list. -/
def Playlist.get_next_plugin (pl : Playlist) : Option (PluginInstance × Playlist) :=
  match pl.current_plugin_index with
  | none =>
    match pl.plugins[0]? with
    | some p => some (p, { pl with current_plugin_index := some 0 })
    | none => none
  | some i =>
    if pl.plugins.length = 0 then none
    else
      let j := (i + 1) % pl.plugins.length
      match pl.plugins[j]? with
      | some p => some (p, { pl with current_plugin_index := some j })
      | none => none

/-- The interval clause of should_refresh (model.py lines 435 to 438): the
interval key is present, its value is truthy (nonzero), and the elapsed time
since the last refresh is at least that many seconds. -/
def intervalCheck (iv : Option Int) (last cur : DT) : Bool :=
  match iv with
  | some v =>
    !(v == 0) && decide ((cur.absMicros : Int) - (last.absMicros : Int) ≥ v * 1000000)
  | none => false

/-- The scheduled clauses of should_refresh (model.py lines 441 to 459): first
the lexicographic string comparison of the last refresh's "HH:MM" against the
scheduled string, then (parsing the scheduled string, which raises on
malformed input, modelled by none) the date-based conditions. -/
def scheduledCheck (sched : String) (last cur : DT) : Option Bool :=
  if strLt (formatTimeHHMM last.tod) sched then some true
  else
    (parseHHMM sched).map (fun st =>
      (decide (last.day < cur.day) && decide (st ≤ cur.tod))
      || (decide (last.day = cur.day) && decide (last.tod < st)
          && decide (st ≤ cur.tod)))

/-- PluginInstance.should_refresh (model.py line 428).  Result none models an
uncaught ValueError from strptime on a malformed scheduled time string. -/
def PluginInstance.should_refresh (p : PluginInstance) (current_time : DT) : Option Bool :=
  match p.latest_refresh_time with
  | none => some true
  | some last =>
    if intervalCheck p.refresh.interval last current_time then some true
    else
      match p.refresh.scheduled with
      | none => some false
      | some sched => scheduledCheck sched last current_time

/-- The test `plugin.should_refresh(current_dt) or global_should_refresh` used
by find_plugin_to_refresh; none models a propagating exception. -/
def orGlobal (p : PluginInstance) (cur : DT) (g : Bool) : Option Bool :=
  match p.should_refresh cur with
  | none => none
  | some b => some (b || g)

/-- The scan loop of find_plugin_to_refresh (model.py line 358): i counts the
iterations already done, k the iterations remaining; returns the found index,
some none when no plugin qualifies, none on a propagating exception. -/
def findScanAux (ps : List PluginInstance) (cur : DT) (g : Bool) (start : Nat) :
    Nat → Nat → Option (Option Nat)
  | _, 0 => some none
  | i, k + 1 =>
    let index := (start + i) % ps.length
    match ps[index]? with
    | none => none
    | some p =>
      match orGlobal p cur g with
      | none => none
      | some true => some (some index)
      | some false => findScanAux ps cur g start (i + 1) k

/-- The scan phase of find_plugin_to_refresh starting at the given index: the
cursor is set only when a plugin is found. -/
def scanFrom (pl : Playlist) (cur : DT) (g : Bool) (start : Nat) :
    Option (Option Nat × Playlist) :=
  match findScanAux pl.plugins cur g start 0 pl.plugins.length with
  | none => none
  | some none => some (none, pl)
  | some (some idx) => some (some idx, { pl with current_plugin_index := some idx })

/-- Playlist.find_plugin_to_refresh (model.py line 333), returning the index of
the plugin to refresh (if any) and the resulting playlist state; none models
a propagating exception from should_refresh. -/
def Playlist.find_plugin_to_refresh (pl : Playlist) (cur : DT) (g : Bool) :
    Option (Option Nat × Playlist) :=
  if pl.plugins.isEmpty then some (none, pl)
  else
    match pl.current_plugin_index with
    | some ci =>
      match pl.plugins[ci]? with
      | some p =>
        match orGlobal p cur g with
        | none => none
        | some true => some (some ci, pl)
        | some false => scanFrom pl cur g (ci + 1)
      | none => scanFrom pl cur g (ci + 1)
    | none => scanFrom pl cur g 0

/-- Whether the plugin at the given index tests due-or-overridden; false at an
invalid index and when should_refresh raises. -/
def dueAtB (ps : List PluginInstance) (cur : DT) (g : Bool) (idx : Nat) : Bool :=
  match ps[idx]? with
  | some p => (orGlobal p cur g).getD false
  | none => false

/-- The index at which the forward scan of find_plugin_to_refresh starts:
cursor plus one when the cursor is set, else 0 (model.py line 357). -/
def startScanIdx (pl : Playlist) : Nat :=
  match pl.current_plugin_index with
  | none => 0
  | some ci => ci + 1

/-- Whether the cursor test of find_plugin_to_refresh fires: the cursor is set
to a valid index whose plugin is due or overridden (model.py line 350). -/
def cursorHitB (pl : Playlist) (cur : DT) (g : Bool) : Bool :=
  match pl.current_plugin_index with
  | none => false
  | some ci => dueAtB pl.plugins cur g ci

/-- The argument of determine_active_playlist: either a real datetime or any
other value (one without strftime), which the method rejects. -/
inductive DTInput where
  | datetime : DT → DTInput
  | notDatetime : DTInput
deriving DecidableEq, Repr

/-- PlaylistManager.invalidate_cache (model.py line 174): empty dict, no
expiry. -/
def PlaylistManager.invalidate_cache (m : PlaylistManager) : PlaylistManager :=
  { m with activeCache := none, cacheExpiry := none }

/-- PlaylistManager.get_playlist (model.py line 180): first playlist with the
given name. -/
def PlaylistManager.get_playlist (m : PlaylistManager) (nm : String) : Option Playlist :=
  m.playlists.find? (fun p => p.name == nm)

/-- Replace the first playlist with the given name by f of it, as the in-place
mutation of the object returned by get_playlist does. -/
def replaceFirstPlaylist (nm : String) (f : Playlist → Playlist) :
    List Playlist → List Playlist
  | [] => []
  | p :: rest =>
    if p.name == nm then f p :: rest else p :: replaceFirstPlaylist nm f rest

/-- The playlists filtered to those that are window-active at the current
"HH:MM" and have at least one plugin (model.py lines 139 to 146). -/
def PlaylistManager.qualifying (m : PlaylistManager) (dt : DT) : List Playlist :=
  m.playlists.filter (fun p => p.is_active (formatTimeHHMM dt.tod) && !p.plugins.isEmpty)

/-- The sort key (p.get_priority(), p.name) of model.py line 154, with a
placeholder priority for the unparseable case in which Python would raise. -/
def playlistKey (p : Playlist) : Int × String :=
  (p.get_priority.getD 0, p.name)

/-- Strict lexicographic comparison of (priority, name) keys, matching Python
tuple comparison with string comparison by code points. -/
def keyLtb (a b : Int × String) : Bool :=
  decide (a.1 < b.1) || (decide (a.1 = b.1) && strLt a.2 b.2)

/-- First element with minimal key, as sorting stably by key and taking
element 0 does (model.py lines 154 and 160). -/
def pickMinPlaylist (a : Playlist) (rest : List Playlist) : Playlist :=
  rest.foldl (fun acc p => if keyLtb (playlistKey p) (playlistKey acc) then p else acc) a

/-- PlaylistManager._calculate_active_playlist (model.py line 126): none when
there are no playlists or none qualify; otherwise the first qualifying
playlist after the stable sort by (priority, name); when computing a priority
raises, sorting fails and the first qualifying playlist in original order is
returned. -/
def PlaylistManager.calculate_active_playlist (m : PlaylistManager) (dt : DT) :
    Option Playlist :=
  match m.playlists with
  | [] => none
  | _ :: _ =>
    match m.qualifying dt with
    | [] => none
    | a :: rest =>
      if (a :: rest).all (fun p => p.get_priority.isSome) then
        some (pickMinPlaylist a rest)
      else some a

/-- PlaylistManager.determine_active_playlist (model.py line 94): reject
non-datetime input; return the cached value when the expiry is in the future
and the cache key matches; otherwise recompute and store the result with a
one-minute expiry. -/
def PlaylistManager.determine_active_playlist (m : PlaylistManager) (input : DTInput) :
    Option Playlist × PlaylistManager :=
  match input with
  | DTInput.notDatetime => (none, m)
  | DTInput.datetime dt =>
    let cacheKey := formatTimeHHMM dt.tod
    let hit : Option (Option Playlist) :=
      match m.cacheExpiry, m.activeCache with
      | some exp, some kv =>
        if dt.absMicros < exp.absMicros ∧ kv.1 = cacheKey then some kv.2 else none
      | _, _ => none
    match hit with
    | some v => (v, m)
    | none =>
      let active := m.calculate_active_playlist dt
      (active, { m with activeCache := some (cacheKey, active),
                        cacheExpiry := some (dt.addMicros microsPerMinute) })

/-- PlaylistManager.add_plugin_to_playlist (model.py line 184): the cache is
invalidated only when the playlist exists and the add succeeded. -/
def PlaylistManager.add_plugin_to_playlist (m : PlaylistManager) (plName : String)
    (d : PluginInstanceDict) : Bool × PlaylistManager :=
  match m.get_playlist plName with
  | none => (false, m)
  | some pl =>
    let r := pl.add_plugin d
    let m2 := { m with playlists := replaceFirstPlaylist plName (fun _ => r.2) m.playlists }
    if r.1 then (true, m2.invalidate_cache) else (false, m2)

/-- PlaylistManager.add_playlist (model.py line 196), with the default window
"00:00" to "24:00" for missing (or falsy, i.e. empty) times. -/
def PlaylistManager.add_playlist (m : PlaylistManager) (nm : String)
    (st et : Option String) : Bool × PlaylistManager :=
  let s := match st with
    | none => "00:00"
    | some x => if x = "" then "00:00" else x
  let e := match et with
    | none => "24:00"
    | some x => if x = "" then "24:00" else x
  let newList := m.playlists ++ [({ name := nm, start_time := s, end_time := e,
                                    plugins := [], current_plugin_index := none } : Playlist)]
  (true, ({ m with playlists := newList }).invalidate_cache)

/-- PlaylistManager.update_playlist (model.py line 206). -/
def PlaylistManager.update_playlist (m : PlaylistManager) (old_name new_name st et : String) :
    Bool × PlaylistManager :=
  match m.get_playlist old_name with
  | some _ =>
    let newList :=
      replaceFirstPlaylist old_name
        (fun p => { p with name := new_name, start_time := st, end_time := et })
        m.playlists
    (true, ({ m with playlists := newList }).invalidate_cache)
  | none => (false, m)

/-- PlaylistManager.delete_playlist (model.py line 218). -/
def PlaylistManager.delete_playlist (m : PlaylistManager) (nm : String) : PlaylistManager :=
  ({ m with playlists := m.playlists.filter (fun p => !(p.name == nm)) }).invalidate_cache

/-- The aggregate state transition when Playlist.delete_plugin (model.py line
310) is invoked on a playlist held by the manager: the playlist mutates in
place and the manager's cache fields are untouched, since Playlist has no
access to the manager's cache. -/
def PlaylistManager.delete_plugin_in_playlist (m : PlaylistManager) (plName pid nm : String) :
    Bool × PlaylistManager :=
  match m.get_playlist plName with
  | none => (false, m)
  | some pl =>
    let r := pl.delete_plugin pid nm
    (r.1, { m with playlists := replaceFirstPlaylist plName (fun _ => r.2) m.playlists })

/-- The aggregate state transition when Playlist.update_plugin (model.py line
301) is invoked on a playlist held by the manager: the playlist mutates in
place and the manager's cache fields are untouched. -/
def PlaylistManager.update_plugin_in_playlist (m : PlaylistManager) (plName pid nm : String)
    (u : PluginUpdate) : Bool × PlaylistManager :=
  match m.get_playlist plName with
  | none => (false, m)
  | some pl =>
    let r := pl.update_plugin pid nm u
    (r.1, { m with playlists := replaceFirstPlaylist plName (fun _ => r.2) m.playlists })

/-- Playlist.to_dict (model.py line 386). -/
def Playlist.to_dict (pl : Playlist) : PlaylistDict :=
  ⟨pl.name, pl.start_time, pl.end_time, pl.plugins.map PluginInstance.to_dict,
   pl.current_plugin_index⟩

/-- Playlist.from_dict (model.py line 395), going through the constructor that
converts the plugin dicts back into PluginInstance objects. -/
def Playlist.from_dict (d : PlaylistDict) : Playlist :=
  ⟨d.name, d.start_time, d.end_time, d.plugins.map PluginInstance.from_dict,
   d.current_plugin_index⟩

/-- PlaylistManager.to_dict (model.py line 223). -/
def PlaylistManager.to_dict (m : PlaylistManager) : PlaylistManagerDict :=
  ⟨m.playlists.map Playlist.to_dict⟩

/-- PlaylistManager.from_dict (model.py line 229); the constructor starts with
an empty cache. -/
def PlaylistManager.from_dict (d : PlaylistManagerDict) : PlaylistManager :=
  ⟨d.playlists.map Playlist.from_dict, none, none⟩

/-! ### Concrete states used by witnesses and counterexamples -/

/-- A two-plugin playlist with the cursor on the last index. -/
def plW : Playlist :=
  ⟨"R", "00:00", "24:00",
   [⟨"a", "A", [], ⟨none, none⟩, none⟩, ⟨"b", "B", [], ⟨none, none⟩, none⟩],
   some 1⟩

/-- A plugin whose interval policy is present but zero, with a recorded
refresh at the epoch. -/
def p2c : PluginInstance := ⟨"x", "n", [], ⟨some 0, none⟩, some ⟨0, 0⟩⟩

/-- A plugin with no refresh policies and no recorded refresh. -/
def p2w : PluginInstance := ⟨"x", "n", [], ⟨none, none⟩, none⟩

/-- A generic always-due plugin. -/
def pgen : PluginInstance := ⟨"p", "P", [], ⟨none, none⟩, none⟩

/-- The 08:00 to 12:00 playlist of the repository's tie-break test. -/
def alphaP : Playlist := ⟨"Alpha", "08:00", "12:00", [pgen], none⟩

/-- The 14:00 to 18:00 playlist of the repository's tie-break test. -/
def betaP : Playlist := ⟨"Beta", "14:00", "18:00", [pgen], none⟩

/-- A manager holding the two playlists in reverse order, as the test does. -/
def mgrAB : PlaylistManager := ⟨[betaP, alphaP], none, none⟩

/-- 10:00 as a datetime. -/
def dt1000 : DT := ⟨0, 36000000000⟩

/-- A 30-minute playlist, 23:00 to 23:30. -/
def cA : Playlist := ⟨"A", "23:00", "23:30", [pgen], none⟩

/-- A midnight-wrapping playlist, 23:00 to 01:00 (a 2-hour window). -/
def cB : Playlist := ⟨"B", "23:00", "01:00", [pgen], none⟩

/-- A manager holding the 30-minute and the wrapping playlist. -/
def m5 : PlaylistManager := ⟨[cA, cB], none, none⟩

/-- 23:10 as a datetime, inside both windows of m5. -/
def dt2310 : DT := ⟨0, 83400000000⟩

/-- 12:00 as a datetime. -/
def dt1200 : DT := ⟨0, 43200000000⟩

/-- A full-day playlist holding one plugin, as a stale cached value. -/
def pStale : Playlist := ⟨"Stale", "00:00", "24:00", [pgen], none⟩

/-- A full-day playlist with no plugins. -/
def qEmpty : Playlist := ⟨"Empty", "00:00", "24:00", [], none⟩

/-- A manager whose cache holds a playlist that is not the one the current
playlists justify, with an expiry in the future of dt1200. -/
def m6 : PlaylistManager := ⟨[qEmpty], some ("12:00", some pStale), some ⟨1, 0⟩⟩

/-- A plugin with a five-minute interval policy. -/
def pClock : PluginInstance := ⟨"clock", "Clock", [], ⟨some 300, none⟩, none⟩

/-- A full-day playlist holding the clock plugin. -/
def pMain : Playlist := ⟨"Main", "00:00", "24:00", [pClock], none⟩

/-- A manager holding only pMain, with an empty cache. -/
def m7 : PlaylistManager := ⟨[pMain], none, none⟩

/-- The manager state after one resolution at 12:00 primed the cache. -/
def m7a : PlaylistManager := (m7.determine_active_playlist (DTInput.datetime dt1200)).2

/-- The manager state after Playlist.delete_plugin removed the only plugin of
pMain from inside m7a. -/
def m7b : PlaylistManager := (m7a.delete_plugin_in_playlist "Main" "clock" "Clock").2

/-- A partial update that replaces the plugin's settings. -/
def u7 : PluginUpdate := ⟨some [("k", "v")], none, none⟩

/-- The manager state after Playlist.update_plugin modified the plugin inside
m7a. -/
def m7c : PlaylistManager := (m7a.update_plugin_in_playlist "Main" "clock" "Clock" u7).2

/-- One second past midnight. -/
def dtSmall : DT := ⟨0, 1000000⟩

/-- A three-plugin playlist with the cursor on index 0; at dtSmall only the
middle plugin (no recorded refresh) is due. -/
def plw3 : Playlist :=
  ⟨"T", "00:00", "24:00",
   [⟨"a", "a", [], ⟨some 3600, none⟩, some ⟨0, 0⟩⟩,
    ⟨"b", "b", [], ⟨none, none⟩, none⟩,
    ⟨"c", "c", [], ⟨some 3600, none⟩, some ⟨0, 0⟩⟩],
   some 0⟩

/-! ### Helper lemmas about time parsing -/

lemma digitVal_le {c : Char} {d : Nat} (h : digitVal c = some d) : d ≤ 9 := by
  unfold digitVal at h
  split at h
  · injection h with h2
    omega
  · exact absurd h (by simp)

lemma parseHour_le {l : List Char} {hv : Nat} {rest : List Char}
    (hp : parseHour l = some (hv, rest)) : hv ≤ 23 := by
  match l with
  | [] => exact absurd hp (by simp [parseHour])
  | [c] =>
    rcases hd : digitVal c with _ | d
    · simp [parseHour, hd] at hp
    · simp only [parseHour, hd, Option.some.injEq, Prod.mk.injEq] at hp
      obtain ⟨h3, h4⟩ := hp
      have := digitVal_le hd
      omega
  | c1 :: c2 :: rest2 =>
    rcases hd1 : digitVal c1 with _ | d1
    · simp [parseHour, hd1] at hp
    · rcases hd2 : digitVal c2 with _ | d2
      · simp only [parseHour, hd1, hd2, Option.some.injEq, Prod.mk.injEq] at hp
        obtain ⟨h3, h4⟩ := hp
        have := digitVal_le hd1
        omega
      · have h1 := digitVal_le hd1
        have h2 := digitVal_le hd2
        simp only [parseHour, hd1, hd2] at hp
        split_ifs at hp <;>
          (simp only [Option.some.injEq, Prod.mk.injEq] at hp;
           obtain ⟨h3, h4⟩ := hp; omega)

lemma parseMinute_le {l : List Char} {mv : Nat} {rest : List Char}
    (hp : parseMinute l = some (mv, rest)) : mv ≤ 59 := by
  match l with
  | [] => exact absurd hp (by simp [parseMinute])
  | [c] =>
    rcases hd : digitVal c with _ | d
    · simp [parseMinute, hd] at hp
    · simp only [parseMinute, hd, Option.some.injEq, Prod.mk.injEq] at hp
      obtain ⟨h3, h4⟩ := hp
      have := digitVal_le hd
      omega
  | c1 :: c2 :: rest2 =>
    rcases hd1 : digitVal c1 with _ | d1
    · simp [parseMinute, hd1] at hp
    · rcases hd2 : digitVal c2 with _ | d2
      · simp only [parseMinute, hd1, hd2, Option.some.injEq, Prod.mk.injEq] at hp
        obtain ⟨h3, h4⟩ := hp
        have := digitVal_le hd1
        omega
      · have h1 := digitVal_le hd1
        have h2 := digitVal_le hd2
        simp only [parseMinute, hd1, hd2] at hp
        split_ifs at hp <;>
          (simp only [Option.some.injEq, Prod.mk.injEq] at hp;
           obtain ⟨h3, h4⟩ := hp; omega)

/-- Every time of day parsed from an "HH:MM" string is at most 23:59, in
particular strictly below the 23:59:59.999999 sentinel and below one day. -/
lemma parseHHMM_le {s : String} {c : Nat} (h : parseHHMM s = some c) :
    c ≤ 1439 * microsPerMinute := by
  unfold parseHHMM at h
  rcases hh : parseHour s.data with _ | hr <;> rw [hh] at h
  · exact absurd h (by simp)
  · rcases hr with ⟨hval, rest⟩
    match rest with
    | [] => exact absurd h (by simp)
    | ch :: rest2 =>
      dsimp only at h
      split at h
      · rcases hm : parseMinute rest2 with _ | mr <;> rw [hm] at h
        · exact absurd h (by simp)
        · rcases mr with ⟨mval, mrest⟩
          match mrest with
          | [] =>
            injection h with h2
            have hb1 := parseHour_le hh
            have hb2 := parseMinute_le hm
            have : hval * 60 + mval ≤ 1439 := by omega
            calc c = (hval * 60 + mval) * microsPerMinute := h2.symm
              _ ≤ 1439 * microsPerMinute := Nat.mul_le_mul_right _ this
          | _ :: _ => exact absurd h (by simp)
      · exact absurd h (by simp)

/-- is_active, rewritten through successful parses of all three times. -/
lemma is_active_eq {pl : Playlist} {t : String} {c s e : Nat}
    (hc : parseHHMM t = some c) (hs : parseHHMM pl.start_time = some s)
    (he : (if pl.end_time = "24:00" then some endOfDaySentinel
           else parseHHMM pl.end_time) = some e) :
    pl.is_active t = if e < s then decide (s ≤ c) || decide (c < e)
                     else decide (s ≤ c) && decide (c < e) := by
  unfold Playlist.is_active
  rw [hc, hs, he]

/-! ### C1 -/

/-- C1: for a playlist whose start, end ("24:00" standing for the sentinel
23:59:59.999999) and tested time all parse: when start is before the end the
window is active iff start <= t < end; when start is after the end the window
wraps midnight and is active iff t >= start or t < end; and a "00:00" to
"24:00" window is active at every well-formed time of day. -/
theorem C1_window_membership (pl : Playlist) (t : String) (c s e : Nat)
    (hc : parseHHMM t = some c) (hs : parseHHMM pl.start_time = some s)
    (he : (if pl.end_time = "24:00" then some endOfDaySentinel
           else parseHHMM pl.end_time) = some e) :
    (s < e → (pl.is_active t = true ↔ (s ≤ c ∧ c < e)))
    ∧ (e < s → (pl.is_active t = true ↔ (s ≤ c ∨ c < e)))
    ∧ (pl.start_time = "00:00" → pl.end_time = "24:00" → pl.is_active t = true) := by
  have hb := parseHHMM_le hc
  rw [is_active_eq hc hs he]
  refine ⟨?_, ?_, ?_⟩
  · intro hlt
    rw [if_neg (by omega)]
    simp
  · intro hgt
    rw [if_pos hgt]
    simp
  · intro h0 h24
    rw [h0] at hs
    rw [show parseHHMM "00:00" = some 0 from rfl] at hs
    injection hs with hs2
    rw [if_pos h24] at he
    injection he with he2
    rw [if_neg (by omega)]
    have h1 : s ≤ c := by omega
    have h2 : c < e := by
      rw [← he2]
      unfold endOfDaySentinel
      unfold microsPerMinute at hb
      omega
    simp [h1, h2]

/-- C1 witness: the full-day window is active at the last minute of the day. -/
theorem C1_witness :
    (⟨"All Day", "00:00", "24:00", [], none⟩ : Playlist).is_active "23:59" = true :=
  (C1_window_membership ⟨"All Day", "00:00", "24:00", [], none⟩ "23:59"
    86340000000 0 endOfDaySentinel (by decide) (by decide) (by decide)).2.2 rfl rfl

/-! ### C8 -/

/-- C8: an unparseable time-of-day string makes is_active report false rather
than raising, and a non-datetime input makes determine_active_playlist return
none with the manager unchanged rather than raising. -/
theorem C8_malformed_inputs (pl : Playlist) (s : String) (m : PlaylistManager)
    (h : parseHHMM s = none) :
    pl.is_active s = false
    ∧ m.determine_active_playlist DTInput.notDatetime = (none, m) := by
  constructor
  · unfold Playlist.is_active
    rw [h]
  · rfl

/-- C8 witness at a concrete malformed string and a concrete manager. -/
theorem C8_witness :
    (⟨"W", "08:00", "20:00", [], none⟩ : Playlist).is_active "not a time" = false
    ∧ (⟨[], none, none⟩ : PlaylistManager).determine_active_playlist DTInput.notDatetime
        = (none, ⟨[], none, none⟩) :=
  C8_malformed_inputs ⟨"W", "08:00", "20:00", [], none⟩ "not a time"
    ⟨[], none, none⟩ (by decide)

/-! ### C9 -/

lemma plugin_roundtrip (p : PluginInstance) :
    PluginInstance.from_dict p.to_dict = p := rfl

lemma playlist_roundtrip (pl : Playlist) :
    Playlist.from_dict pl.to_dict = pl := by
  cases pl with
  | mk nm st et ps idx =>
    simp [Playlist.to_dict, Playlist.from_dict, List.map_map, Function.comp_def,
      plugin_roundtrip]

/-- C9: serializing a manager with to_dict and deserializing with from_dict
reproduces the same sequence of playlists, with all names, windows, cursors
and plugin instances equal. -/
theorem C9_serialization_roundtrip (m : PlaylistManager) :
    (PlaylistManager.from_dict m.to_dict).playlists = m.playlists := by
  unfold PlaylistManager.from_dict PlaylistManager.to_dict
  simp [List.map_map, Function.comp_def, playlist_roundtrip]

/-! ### C10 -/

/-- C10: next-plugin rotation is total exactly on non-empty playlists: with at
least one plugin it returns a plugin and a cursor that is a valid index (0 on
the first call, otherwise previous plus one modulo the size); with zero
plugins its error branch is reached. -/
theorem C10_get_next_plugin (pl : Playlist) :
    (pl.plugins = [] → pl.get_next_plugin = none)
    ∧ (pl.plugins ≠ [] →
        ∃ p j, pl.get_next_plugin = some (p, { pl with current_plugin_index := some j })
          ∧ j < pl.plugins.length ∧ pl.plugins[j]? = some p
          ∧ j = (match pl.current_plugin_index with
                 | none => 0
                 | some i => (i + 1) % pl.plugins.length)) := by
  rcases pl with ⟨nm, st, et, ps, idx⟩
  constructor
  · intro hemp
    rcases idx with _ | i <;> rcases ps with _ | ⟨q, qs⟩
    · rfl
    · exact absurd hemp (by simp)
    · rfl
    · exact absurd hemp (by simp)
  · intro hne
    rcases idx with _ | i <;> rcases ps with _ | ⟨q, qs⟩
    · exact absurd rfl hne
    · refine ⟨q, 0, ?_, by simp, by simp, rfl⟩
      simp [Playlist.get_next_plugin]
    · exact absurd rfl hne
    · have hlen : 0 < (q :: qs).length := by simp
      have hj : (i + 1) % (q :: qs).length < (q :: qs).length := Nat.mod_lt _ hlen
      have hget : (q :: qs)[(i + 1) % (q :: qs).length]? =
          some ((q :: qs)[(i + 1) % (q :: qs).length]) := List.getElem?_eq_getElem hj
      refine ⟨(q :: qs)[(i + 1) % (q :: qs).length], (i + 1) % (q :: qs).length,
        ?_, hj, hget, rfl⟩
      show Playlist.get_next_plugin _ = _
      simp only [Playlist.get_next_plugin]
      rw [if_neg (by simp)]
      rw [hget]

/-- C10 witness: a two-plugin playlist with cursor 1 wraps back to index 0. -/
theorem C10_witness :
    plW.plugins ≠ []
    ∧ ∃ p j, plW.get_next_plugin = some (p, { plW with current_plugin_index := some j })
        ∧ j < plW.plugins.length ∧ plW.plugins[j]? = some p
        ∧ j = (match plW.current_plugin_index with
               | none => 0
               | some i => (i + 1) % plW.plugins.length) :=
  ⟨by decide, (C10_get_next_plugin plW).2 (by decide)⟩

/-! ### C2 -/

lemma intervalCheck_spec (iv : Option Int) (last cur : DT) :
    intervalCheck iv last cur = true ↔
      ∃ v, iv = some v ∧ v ≠ 0
        ∧ (cur.absMicros : Int) - (last.absMicros : Int) ≥ v * 1000000 := by
  rcases iv with _ | v
  · simp [intervalCheck]
  · simp [intervalCheck]

lemma scheduledCheck_spec (sched : String) (last cur : DT)
    (hp : (parseHHMM sched).isSome) :
    (scheduledCheck sched last cur).isSome
    ∧ (scheduledCheck sched last cur = some true ↔
        strLt (formatTimeHHMM last.tod) sched = true
        ∨ ∃ st, parseHHMM sched = some st
            ∧ ((last.day < cur.day ∧ st ≤ cur.tod)
               ∨ (last.day = cur.day ∧ last.tod < st ∧ st ≤ cur.tod))) := by
  obtain ⟨st, hst⟩ := Option.isSome_iff_exists.mp hp
  unfold scheduledCheck
  split_ifs with hlex
  · exact ⟨rfl, by simp [hlex]⟩
  · rw [hst]
    constructor
    · rfl
    · simp [hlex, hst, and_assoc]

/-- C2 counterexample: with an interval policy present but equal to 0, a
recorded previous refresh and elapsed time 0 >= 0 seconds, the claim's
condition "interval policy is set and elapsed >= interval" holds, yet
should_refresh returns false (the code requires a truthy interval). -/
theorem C2_counterexample :
    p2c.refresh.interval = some 0
    ∧ p2c.latest_refresh_time = some ⟨0, 0⟩
    ∧ (((⟨0, 0⟩ : DT).absMicros : Int) - ((⟨0, 0⟩ : DT).absMicros : Int) ≥ 0 * 1000000)
    ∧ p2c.should_refresh ⟨0, 0⟩ = some false := by
  refine ⟨rfl, rfl, by decide, by decide⟩

/-- C2 (amended): when every scheduled string present parses, should_refresh
never raises, is true when no refresh is recorded, and otherwise is true
exactly when (the interval policy is set to a nonzero value and the elapsed
time reaches it) or (a scheduled policy is set and the last refresh's "HH:MM"
is lexicographically below the scheduled string, or the last refresh date is
before the current date and the current time of day has reached the scheduled
time, or the dates are equal and the scheduled time lies after the last
refresh's and at or before the current time of day). -/
theorem C2_should_refresh_amended (p : PluginInstance) (cur : DT)
    (hsched : ∀ str, p.refresh.scheduled = some str → (parseHHMM str).isSome) :
    (p.should_refresh cur).isSome
    ∧ (p.latest_refresh_time = none → p.should_refresh cur = some true)
    ∧ (∀ last, p.latest_refresh_time = some last →
        (p.should_refresh cur = some true ↔
          (∃ v, p.refresh.interval = some v ∧ v ≠ 0
             ∧ (cur.absMicros : Int) - (last.absMicros : Int) ≥ v * 1000000)
          ∨ (∃ str, p.refresh.scheduled = some str
             ∧ (strLt (formatTimeHHMM last.tod) str = true
                ∨ ∃ st, parseHHMM str = some st
                   ∧ ((last.day < cur.day ∧ st ≤ cur.tod)
                      ∨ (last.day = cur.day ∧ last.tod < st ∧ st ≤ cur.tod)))))) := by
  rcases hl : p.latest_refresh_time with _ | last
  · refine ⟨by simp [PluginInstance.should_refresh, hl], fun _ => by
      simp [PluginInstance.should_refresh, hl], fun last2 hlast2 => ?_⟩
    exact absurd hlast2 (by simp)
  · rcases hint : intervalCheck p.refresh.interval last cur
    · have hni : ¬ ∃ v, p.refresh.interval = some v ∧ v ≠ 0
          ∧ (cur.absMicros : Int) - (last.absMicros : Int) ≥ v * 1000000 := by
        rw [← intervalCheck_spec p.refresh.interval last cur]
        simp [hint]
      rcases hsc : p.refresh.scheduled with _ | sched
      · have hval : p.should_refresh cur = some false := by
          simp [PluginInstance.should_refresh, hl, hint, hsc]
        refine ⟨by rw [hval]; rfl, fun hn => absurd hn (by simp), ?_⟩
        intro last2 hlast2
        injection hlast2 with he
        subst he
        rw [hval]
        constructor
        · intro h
          exact absurd h (by simp)
        · intro h
          rcases h with hx | ⟨str, hstr, _⟩
          · exact absurd hx hni
          · exact absurd hstr (by simp)
      · have hval : p.should_refresh cur = scheduledCheck sched last cur := by
          simp [PluginInstance.should_refresh, hl, hint, hsc]
        have hps := hsched sched hsc
        obtain ⟨hsome, hiff⟩ := scheduledCheck_spec sched last cur hps
        refine ⟨by rw [hval]; exact hsome, fun hn => absurd hn (by simp), ?_⟩
        intro last2 hlast2
        injection hlast2 with he
        subst he
        rw [hval]
        constructor
        · intro h
          right
          exact ⟨sched, rfl, hiff.mp h⟩
        · intro h
          rcases h with hx | ⟨str, hstr, hrest⟩
          · exact absurd hx hni
          · injection hstr with he2
            subst he2
            exact hiff.mpr hrest
    · have hval : p.should_refresh cur = some true := by
        simp [PluginInstance.should_refresh, hl, hint]
      refine ⟨by rw [hval]; rfl, fun hn => absurd hn (by simp), ?_⟩
      intro last2 hlast2
      injection hlast2 with he
      subst he
      rw [hval]
      constructor
      · intro _
        exact Or.inl ((intervalCheck_spec p.refresh.interval last cur).mp hint)
      · intro _
        rfl

/-- C2 witness: a plugin with no recorded refresh is due. -/
theorem C2_witness : p2w.should_refresh ⟨0, 0⟩ = some true :=
  (C2_should_refresh_amended p2w ⟨0, 0⟩ (fun _ h => nomatch h)).2.1 rfl

/-! ### Order lemmas for the (priority, name) sort key -/

lemma char_toNat_inj {a b : Char} (h : a.toNat = b.toNat) : a = b := by
  rw [← Char.ofNat_toNat a, ← Char.ofNat_toNat b, h]

lemma chListLt_irrefl (l : List Char) : chListLt l l = false := by
  induction l with
  | nil => rfl
  | cons x xs ih => simp [chListLt, ih]

lemma chListLt_trans (a : List Char) :
    ∀ b c, chListLt a b = true → chListLt b c = true → chListLt a c = true := by
  induction a with
  | nil =>
    intro b c hab hbc
    cases b with
    | nil => simp [chListLt] at hab
    | cons y ys =>
      cases c with
      | nil => simp [chListLt] at hbc
      | cons z zs => simp [chListLt]
  | cons x xs ih =>
    intro b c hab hbc
    cases b with
    | nil => simp [chListLt] at hab
    | cons y ys =>
      cases c with
      | nil => simp [chListLt] at hbc
      | cons z zs =>
        simp only [chListLt, Bool.or_eq_true, Bool.and_eq_true, beq_iff_eq,
          decide_eq_true_eq] at hab hbc ⊢
        rcases hab with h1 | ⟨h2, h3⟩
        · rcases hbc with g1 | ⟨g2, g3⟩
          · exact Or.inl (by omega)
          · exact Or.inl (by omega)
        · rcases hbc with g1 | ⟨g2, g3⟩
          · exact Or.inl (by omega)
          · exact Or.inr ⟨by omega, ih ys zs h3 g3⟩

lemma chListLt_conn (a : List Char) :
    ∀ b, chListLt a b = false → chListLt b a = false → a = b := by
  induction a with
  | nil =>
    intro b h1 _
    cases b with
    | nil => rfl
    | cons y ys => simp [chListLt] at h1
  | cons x xs ih =>
    intro b h1 h2
    cases b with
    | nil => simp [chListLt] at h2
    | cons y ys =>
      simp only [chListLt, Bool.or_eq_false_iff, Bool.and_eq_false_iff,
        decide_eq_false_iff_not, beq_eq_false_iff_ne, ne_eq] at h1 h2
      have hxy : x.toNat = y.toNat := by omega
      obtain ⟨_, h1b⟩ := h1
      obtain ⟨_, h2b⟩ := h2
      rcases h1b with hx | hlt1
      · exact absurd hxy hx
      · rcases h2b with hy | hlt2
        · exact absurd hxy.symm hy
        · rw [char_toNat_inj hxy, ih ys hlt1 hlt2]

lemma strLt_conn {a b : String} (h1 : strLt a b = false) (h2 : strLt b a = false) :
    a = b := by
  have := chListLt_conn a.data b.data h1 h2
  cases a
  cases b
  simp at this
  rw [this]

lemma keyLtb_irrefl (a : Int × String) : keyLtb a a = false := by
  unfold keyLtb strLt
  simp [chListLt_irrefl]

lemma keyLtb_trans {a b c : Int × String} (hab : keyLtb a b = true)
    (hbc : keyLtb b c = true) : keyLtb a c = true := by
  unfold keyLtb at hab hbc ⊢
  simp only [Bool.or_eq_true, Bool.and_eq_true, decide_eq_true_eq] at hab hbc ⊢
  rcases hab with h1 | ⟨h2, h3⟩
  · rcases hbc with g1 | ⟨g2, g3⟩
    · exact Or.inl (by omega)
    · exact Or.inl (by omega)
  · rcases hbc with g1 | ⟨g2, g3⟩
    · exact Or.inl (by omega)
    · exact Or.inr ⟨by omega, chListLt_trans _ _ _ h3 g3⟩

lemma keyLtb_total {a b : Int × String} (h : keyLtb a b = false) :
    keyLtb b a = true ∨ a = b := by
  rcases hba : keyLtb b a
  · right
    unfold keyLtb at h hba
    simp only [Bool.or_eq_false_iff, Bool.and_eq_false_iff,
      decide_eq_false_iff_not] at h hba
    have he : a.1 = b.1 := by omega
    obtain ⟨_, h2⟩ := h
    obtain ⟨_, g2⟩ := hba
    rcases h2 with hx | hlt1
    · exact absurd he hx
    · rcases g2 with hy | hlt2
      · exact absurd he.symm hy
      · have hs := strLt_conn hlt1 hlt2
        rcases a with ⟨a1, a2⟩
        rcases b with ⟨b1, b2⟩
        simp only at he hs
        rw [he, hs]
  · exact Or.inl rfl

/-! ### The stable minimum taken by the sort in _calculate_active_playlist -/

lemma pickMin_spec (rest : List Playlist) :
    ∀ a : Playlist,
      pickMinPlaylist a rest ∈ a :: rest
      ∧ ∀ q ∈ a :: rest,
          keyLtb (playlistKey q) (playlistKey (pickMinPlaylist a rest)) = false := by
  induction rest with
  | nil =>
    intro a
    constructor
    · simp [pickMinPlaylist]
    · intro q hq
      simp at hq
      subst hq
      simp [pickMinPlaylist, keyLtb_irrefl]
  | cons p t ih =>
    intro a
    have hstep : pickMinPlaylist a (p :: t) =
        pickMinPlaylist (if keyLtb (playlistKey p) (playlistKey a) then p else a) t := rfl
    rcases hc : keyLtb (playlistKey p) (playlistKey a)
    · rw [hstep, hc]
      simp only [Bool.false_eq_true, if_false]
      obtain ⟨hmem, hmin⟩ := ih a
      constructor
      · rcases List.mem_cons.mp hmem with h | h
        · rw [h]
          exact List.mem_cons_self _ _
        · exact List.mem_cons_of_mem _ (List.mem_cons_of_mem _ h)
      · intro q hq
        rcases List.mem_cons.mp hq with rfl | hq2
        · exact hmin q (List.mem_cons_self _ _)
        · rcases List.mem_cons.mp hq2 with rfl | hq3
          · rcases hpm : keyLtb (playlistKey q) (playlistKey (pickMinPlaylist a t))
            · rfl
            · exfalso
              have hna := hmin a (List.mem_cons_self _ _)
              rcases keyLtb_total hc with hlt | heq
              · have : keyLtb (playlistKey a) (playlistKey (pickMinPlaylist a t)) = true :=
                  keyLtb_trans hlt hpm
                rw [this] at hna
                exact absurd hna (by simp)
              · rw [← heq] at hna
                rw [hpm] at hna
                exact absurd hna (by simp)
          · exact hmin q (List.mem_cons_of_mem _ hq3)
    · rw [hstep, hc]
      simp only [if_true]
      obtain ⟨hmem, hmin⟩ := ih p
      constructor
      · exact List.mem_cons_of_mem _ hmem
      · intro q hq
        rcases List.mem_cons.mp hq with rfl | hq2
        · rcases hpm : keyLtb (playlistKey q) (playlistKey (pickMinPlaylist p t))
          · rfl
          · exfalso
            have hnp := hmin p (List.mem_cons_self _ _)
            rcases keyLtb_total hnp with hlt | heq
            · have h1 : keyLtb (playlistKey q) (playlistKey p) = true :=
                keyLtb_trans hpm hlt
              have h2 : keyLtb (playlistKey q) (playlistKey q) = true :=
                keyLtb_trans h1 hc
              rw [keyLtb_irrefl] at h2
              exact absurd h2 (by simp)
            · rw [← heq] at hpm
              have h2 : keyLtb (playlistKey q) (playlistKey q) = true :=
                keyLtb_trans hpm hc
              rw [keyLtb_irrefl] at h2
              exact absurd h2 (by simp)
        · exact hmin q hq2

/-! ### C4 -/

lemma mem_qualifying {m : PlaylistManager} {dt : DT} {p : Playlist} :
    p ∈ m.qualifying dt ↔
      p ∈ m.playlists ∧ p.is_active (formatTimeHHMM dt.tod) = true ∧ p.plugins ≠ [] := by
  unfold PlaylistManager.qualifying
  rw [List.mem_filter]
  simp [and_assoc, List.isEmpty_iff]

lemma is_active_priority_isSome (pl : Playlist) (t : String)
    (h : pl.is_active t = true) : pl.get_priority.isSome := by
  rcases hc : parseHHMM t with _ | c
  · simp [Playlist.is_active, hc] at h
  · rcases hs : parseHHMM pl.start_time with _ | s
    · simp [Playlist.is_active, hc, hs] at h
    · by_cases h24 : pl.end_time = "24:00"
      · simp [Playlist.get_priority, Playlist.get_time_range_minutes, hs, h24]
      · rcases he : parseHHMM pl.end_time with _ | e
        · simp [Playlist.is_active, hc, hs, he, h24] at h
        · simp [Playlist.get_priority, Playlist.get_time_range_minutes, hs, he, h24]

lemma calculate_eq_pickMin (m : PlaylistManager) (dt : DT) (a : Playlist)
    (rest : List Playlist) (hq : m.qualifying dt = a :: rest) :
    m.calculate_active_playlist dt = some (pickMinPlaylist a rest) := by
  have hne : m.playlists ≠ [] := by
    intro h0
    rw [PlaylistManager.qualifying, h0] at hq
    simp at hq
  rcases hpl : m.playlists with _ | ⟨x, xs⟩
  · exact absurd hpl hne
  · have hall : ((a :: rest).all (fun p => p.get_priority.isSome)) = true := by
      rw [List.all_eq_true]
      intro p hp
      have hmem : p ∈ m.qualifying dt := hq ▸ hp
      exact is_active_priority_isSome _ _ (mem_qualifying.mp hmem).2.1
    simp [PlaylistManager.calculate_active_playlist, hpl, hq, hall]

lemma calculate_min (m : PlaylistManager) (dt : DT) (p : Playlist)
    (hp : m.calculate_active_playlist dt = some p) :
    p ∈ m.qualifying dt
    ∧ ∀ q ∈ m.qualifying dt, keyLtb (playlistKey q) (playlistKey p) = false := by
  rcases hq : m.qualifying dt with _ | ⟨a, rest⟩
  · exfalso
    rcases hpl : m.playlists with _ | ⟨x, xs⟩
    · simp [PlaylistManager.calculate_active_playlist, hpl] at hp
    · simp [PlaylistManager.calculate_active_playlist, hpl, hq] at hp
  · rw [calculate_eq_pickMin m dt a rest hq] at hp
    injection hp with he
    obtain ⟨hmem, hmin⟩ := pickMin_spec rest a
    subst he
    exact ⟨hq ▸ hmem, fun q hqq => hmin q (hq ▸ hqq)⟩

/-- C4: resolution considers exactly the playlists that are window-active at
the timestamp's "HH:MM" and have at least one plugin: none qualifying gives
none, a selected playlist is a qualifying one (so never one with zero
plugins), it is minimal under the (priority, name) ordering among the
qualifying playlists, and some qualifying playlist implies a selection. -/
theorem C4_resolution (m : PlaylistManager) (dt : DT) :
    (m.qualifying dt = [] → m.calculate_active_playlist dt = none)
    ∧ (∀ p, m.calculate_active_playlist dt = some p →
        p ∈ m.playlists ∧ p.is_active (formatTimeHHMM dt.tod) = true ∧ p.plugins ≠ []
        ∧ ∀ q ∈ m.qualifying dt, keyLtb (playlistKey q) (playlistKey p) = false)
    ∧ (m.qualifying dt ≠ [] → (m.calculate_active_playlist dt).isSome) := by
  refine ⟨?_, ?_, ?_⟩
  · intro hq
    rcases hpl : m.playlists with _ | ⟨x, xs⟩
    · simp [PlaylistManager.calculate_active_playlist, hpl]
    · simp [PlaylistManager.calculate_active_playlist, hpl, hq]
  · intro p hp
    obtain ⟨hmem, hmin⟩ := calculate_min m dt p hp
    obtain ⟨h1, h2, h3⟩ := mem_qualifying.mp hmem
    exact ⟨h1, h2, h3, hmin⟩
  · intro hq
    rcases hq2 : m.qualifying dt with _ | ⟨a, rest⟩
    · exact absurd hq2 hq
    · rw [calculate_eq_pickMin m dt a rest hq2]
      rfl

/-- C4 witness at the repository's two-playlist example, evaluated at 10:00. -/
theorem C4_witness :
    mgrAB.qualifying dt1000 ≠ [] ∧ (mgrAB.calculate_active_playlist dt1000).isSome :=
  ⟨by decide, (C4_resolution mgrAB dt1000).2.2 (by decide)⟩

/-! ### C5 -/

/-- C5 counterexample: at 23:10 both the 30-minute window "A" (23:00-23:30)
and the 2-hour midnight-wrapping window "B" (23:00-01:00) are active; the
claim says the narrower window (duration 30 < 120 minutes) wins, but the
computed priority of the wrapping window is the negative signed difference
-1320, so the code selects "B". -/
theorem C5_counterexample :
    cA.is_active "23:10" = true
    ∧ cB.is_active "23:10" = true
    ∧ cA.get_time_range_minutes = some 30
    ∧ cB.get_time_range_minutes = some (-1320)
    ∧ m5.calculate_active_playlist dt2310 = some cB := by
  refine ⟨by decide, by decide, by decide, by decide, by decide⟩

/-- C5 (amended): the priority is the signed difference end minus start in
minutes (with end "24:00" computed as 00:00 of the next day), which is
negative for midnight-wrapping windows; among qualifying playlists the
selected one is minimal under the (priority, name) ordering, names breaking
ties in ascending order. -/
theorem C5_priority_amended (p : Playlist) (s e : Nat)
    (hs : parseHHMM p.start_time = some s)
    (he : (if p.end_time = "24:00" then some microsPerDay
           else parseHHMM p.end_time) = some e) :
    p.get_time_range_minutes = some (((e : Int) - (s : Int)) / (microsPerMinute : Int))
    ∧ ∀ (mg : PlaylistManager) (dtx : DT) (q : Playlist),
        mg.calculate_active_playlist dtx = some q →
        ∀ r ∈ mg.qualifying dtx, keyLtb (playlistKey r) (playlistKey q) = false := by
  constructor
  · unfold Playlist.get_time_range_minutes
    rw [hs, he]
  · intro mg dtx q hq r hr
    exact (calculate_min mg dtx q hq).2 r hr

/-- C5 witness: the 30-minute playlist's priority evaluates through the
amended formula. -/
theorem C5_witness :
    cA.get_time_range_minutes
      = some ((((84600000000 : Nat) : Int) - ((82800000000 : Nat) : Int))
              / (microsPerMinute : Int)) :=
  (C5_priority_amended cA 82800000000 84600000000 (by decide) (by decide)).1

/-! ### C6 -/

lemma absMicros_addMicros (d : DT) (k : Nat) :
    (d.addMicros k).absMicros = d.absMicros + k := by
  unfold DT.addMicros DT.absMicros
  dsimp only
  rw [show microsPerDay = 86400000000 from rfl]
  omega

lemma determine_hit (m : PlaylistManager) (dt : DT) (exp : DT)
    (kv : String × Option Playlist)
    (h1 : m.cacheExpiry = some exp) (h2 : m.activeCache = some kv)
    (h3 : dt.absMicros < exp.absMicros) (h4 : kv.1 = formatTimeHHMM dt.tod) :
    m.determine_active_playlist (DTInput.datetime dt) = (kv.2, m) := by
  simp only [PlaylistManager.determine_active_playlist, h1, h2]
  rw [if_pos ⟨h3, h4⟩]

lemma determine_miss (m : PlaylistManager) (dt : DT)
    (h : ∀ exp kv, m.cacheExpiry = some exp → m.activeCache = some kv →
      ¬(dt.absMicros < exp.absMicros ∧ kv.1 = formatTimeHHMM dt.tod)) :
    m.determine_active_playlist (DTInput.datetime dt)
      = (m.calculate_active_playlist dt,
         { m with
             activeCache := some (formatTimeHHMM dt.tod, m.calculate_active_playlist dt),
             cacheExpiry := some (dt.addMicros microsPerMinute) }) := by
  rcases hce : m.cacheExpiry with _ | exp
  · simp only [PlaylistManager.determine_active_playlist, hce]
  · rcases hca : m.activeCache with _ | kv
    · simp only [PlaylistManager.determine_active_playlist, hce, hca]
    · have hn := h exp kv hce hca
      simp only [PlaylistManager.determine_active_playlist, hce, hca]
      rw [if_neg hn]

lemma stable_after_miss (m : PlaylistManager) (dt : DT)
    (h : m.determine_active_playlist (DTInput.datetime dt)
      = (m.calculate_active_playlist dt,
         { m with
             activeCache := some (formatTimeHHMM dt.tod, m.calculate_active_playlist dt),
             cacheExpiry := some (dt.addMicros microsPerMinute) })) :
    ((m.determine_active_playlist (DTInput.datetime dt)).2.determine_active_playlist
      (DTInput.datetime dt)).1 = (m.determine_active_playlist (DTInput.datetime dt)).1 := by
  rw [h]
  dsimp only
  have hd2 := determine_hit
    { m with
        activeCache := some (formatTimeHHMM dt.tod, m.calculate_active_playlist dt),
        cacheExpiry := some (dt.addMicros microsPerMinute) } dt
    (dt.addMicros microsPerMinute)
    (formatTimeHHMM dt.tod, m.calculate_active_playlist dt)
    rfl rfl
    (by
      rw [absMicros_addMicros]
      have h60 : microsPerMinute = 60000000 := rfl
      omega)
    rfl
  rw [hd2]

lemma determine_stable (m : PlaylistManager) (dt : DT) :
    ((m.determine_active_playlist (DTInput.datetime dt)).2.determine_active_playlist
      (DTInput.datetime dt)).1 = (m.determine_active_playlist (DTInput.datetime dt)).1 := by
  rcases hce : m.cacheExpiry with _ | exp
  · refine stable_after_miss m dt (determine_miss m dt ?_)
    intro e kv h1 _
    rw [hce] at h1
    exact absurd h1 (by simp)
  · rcases hca : m.activeCache with _ | ⟨k, v⟩
    · refine stable_after_miss m dt (determine_miss m dt ?_)
      intro e kv _ h2
      rw [hca] at h2
      exact absurd h2 (by simp)
    · by_cases hcond : dt.absMicros < exp.absMicros ∧ k = formatTimeHHMM dt.tod
      · have hd := determine_hit m dt exp (k, v) hce hca hcond.1 hcond.2
        rw [hd]
        dsimp only
        rw [hd]
      · refine stable_after_miss m dt (determine_miss m dt ?_)
        intro e kv h1 h2
        rw [hce] at h1
        have he : exp = e := Option.some.inj h1
        subst he
        rw [hca] at h2
        have hk : (k, v) = kv := Option.some.inj h2
        subst hk
        exact hcond

/-- C6 counterexample: a manager whose cache holds a playlist that the current
configuration does not justify (reachable because Playlist.delete_plugin does
not invalidate the cache): determine_active_playlist returns the cached
playlist while _calculate_active_playlist returns none, so the answer is not
independent of the cache contents. -/
theorem C6_counterexample :
    (m6.determine_active_playlist (DTInput.datetime dt1200)).1 = some pStale
    ∧ m6.calculate_active_playlist dt1200 = none
    ∧ (m6.determine_active_playlist (DTInput.datetime dt1200)).1
        ≠ m6.calculate_active_playlist dt1200 := by
  refine ⟨by decide, by decide, by decide⟩

/-- C6 (amended): whenever the cache entry stored under the timestamp's
"HH:MM" key (if any) equals what _calculate_active_playlist returns for the
current state — in particular whenever the cache is empty, expired or freshly
invalidated — determine_active_playlist returns exactly the uncached result;
clearing the cache never changes the next answer; and a repeated call at the
same timestamp always returns the same playlist as the first. -/
theorem C6_cache_refinement_amended (m : PlaylistManager) (dt : DT)
    (hcons : ∀ v, m.activeCache = some (formatTimeHHMM dt.tod, v) →
      v = m.calculate_active_playlist dt) :
    ((m.determine_active_playlist (DTInput.datetime dt)).1 = m.calculate_active_playlist dt)
    ∧ ((m.invalidate_cache.determine_active_playlist (DTInput.datetime dt)).1
        = m.calculate_active_playlist dt)
    ∧ (((m.determine_active_playlist (DTInput.datetime dt)).2.determine_active_playlist
        (DTInput.datetime dt)).1 = (m.determine_active_playlist (DTInput.datetime dt)).1) := by
  refine ⟨?_, ?_, determine_stable m dt⟩
  · rcases hce : m.cacheExpiry with _ | exp
    · rw [determine_miss m dt (by
        intro e kv h1 _
        rw [hce] at h1
        exact absurd h1 (by simp))]
    · rcases hca : m.activeCache with _ | ⟨k, v⟩
      · rw [determine_miss m dt (by
          intro e kv _ h2
          rw [hca] at h2
          exact absurd h2 (by simp))]
      · by_cases hcond : dt.absMicros < exp.absMicros ∧ k = formatTimeHHMM dt.tod
        · rw [determine_hit m dt exp (k, v) hce hca hcond.1 hcond.2]
          exact hcons v (by rw [hca, hcond.2])
        · rw [determine_miss m dt (by
            intro e kv h1 h2
            rw [hce] at h1
            have he : exp = e := Option.some.inj h1
            subst he
            rw [hca] at h2
            have hk : (k, v) = kv := Option.some.inj h2
            subst hk
            exact hcond)]
  · rfl

/-- C6 witness: with an empty cache, determine agrees with the uncached
computation at the repository's two-playlist example. -/
theorem C6_witness :
    (mgrAB.determine_active_playlist (DTInput.datetime dt1000)).1
      = mgrAB.calculate_active_playlist dt1000 :=
  (C6_cache_refinement_amended mgrAB dt1000 (fun _ h => nomatch h)).1

/-! ### C7 -/

/-- C7: the cache survives plugin deletion and mutation inside a playlist.
After resolving once at 12:00 (priming the cache), deleting the only plugin
through Playlist.delete_plugin succeeds yet leaves the cache untouched and
non-empty, so the next resolution within the minute returns the stale
playlist while the uncached computation returns none; Playlist.update_plugin
likewise succeeds without touching the cache.  This contradicts the documented
requirement that every plugin add, update or delete invalidates the cache. -/
theorem C7_missing_invalidation :
    (m7a.delete_plugin_in_playlist "Main" "clock" "Clock").1 = true
    ∧ m7a.activeCache ≠ none
    ∧ m7b.activeCache = m7a.activeCache
    ∧ m7b.cacheExpiry = m7a.cacheExpiry
    ∧ (m7b.determine_active_playlist (DTInput.datetime dt1200)).1 = some pMain
    ∧ m7b.calculate_active_playlist dt1200 = none
    ∧ (m7a.update_plugin_in_playlist "Main" "clock" "Clock" u7).1 = true
    ∧ m7c.activeCache = m7a.activeCache := by
  refine ⟨by decide, by decide, by decide, by decide, by decide, by decide, by decide,
    by decide⟩

/-! ### C3 -/

lemma orGlobal_isSome (p : PluginInstance) (cur : DT) (g : Bool) :
    (orGlobal p cur g).isSome = (p.should_refresh cur).isSome := by
  unfold orGlobal
  cases hs : p.should_refresh cur <;> simp

lemma mod_cover (len start idx : Nat) (hlen : 0 < len) (hidx : idx < len) :
    ∃ j, j < len ∧ (start + j) % len = idx := by
  have h1 : start % len < len := Nat.mod_lt start hlen
  rcases Nat.lt_or_ge idx (start % len) with hc | hc
  · refine ⟨idx + len - start % len, by omega, ?_⟩
    rw [Nat.add_mod]
    have hj : (idx + len - start % len) % len = idx + len - start % len :=
      Nat.mod_eq_of_lt (by omega)
    rw [hj]
    have he : start % len + (idx + len - start % len) = idx + len := by omega
    rw [he, Nat.add_mod_right]
    exact Nat.mod_eq_of_lt hidx
  · refine ⟨idx - start % len, by omega, ?_⟩
    rw [Nat.add_mod]
    have hj : (idx - start % len) % len = idx - start % len :=
      Nat.mod_eq_of_lt (by omega)
    rw [hj]
    have he : start % len + (idx - start % len) = idx := by omega
    rw [he]
    exact Nat.mod_eq_of_lt hidx

lemma findScanAux_spec (ps : List PluginInstance) (cur : DT) (g : Bool) (start : Nat)
    (hlen : 0 < ps.length)
    (hall : ∀ p ∈ ps, (p.should_refresh cur).isSome) :
    ∀ k i,
      (findScanAux ps cur g start i k = some none
        ∧ ∀ j, j < k → dueAtB ps cur g ((start + i + j) % ps.length) = false)
      ∨ (∃ j, j < k
          ∧ findScanAux ps cur g start i k = some (some ((start + i + j) % ps.length))
          ∧ dueAtB ps cur g ((start + i + j) % ps.length) = true
          ∧ ∀ j2, j2 < j → dueAtB ps cur g ((start + i + j2) % ps.length) = false) := by
  intro k
  induction k with
  | zero =>
    intro i
    left
    exact ⟨rfl, fun j hj => absurd hj (by omega)⟩
  | succ k ih =>
    intro i
    have hidx : (start + i) % ps.length < ps.length := Nat.mod_lt _ hlen
    have hget : ps[(start + i) % ps.length]? = some ps[(start + i) % ps.length] :=
      List.getElem?_eq_getElem hidx
    have hmem : ps[(start + i) % ps.length] ∈ ps := List.getElem_mem _
    have hsome : (orGlobal ps[(start + i) % ps.length] cur g).isSome := by
      rw [orGlobal_isSome]
      exact hall _ hmem
    obtain ⟨b, hb⟩ := Option.isSome_iff_exists.mp hsome
    have hdue : dueAtB ps cur g ((start + i) % ps.length) = b := by
      simp only [dueAtB, hget, hb, Option.getD_some]
    cases b
    · have hrec : findScanAux ps cur g start i (k + 1) = findScanAux ps cur g start (i + 1) k := by
        simp only [findScanAux, hget, hb]
      rcases ih (i + 1) with ⟨ha1, ha2⟩ | ⟨j, hj1, hj2, hj3, hj4⟩
      · left
        refine ⟨by rw [hrec]; exact ha1, ?_⟩
        intro j hj
        rcases j with _ | j2
        · rw [show start + i + 0 = start + i from rfl]
          exact hdue
        · rw [show start + i + (j2 + 1) = start + (i + 1) + j2 from by omega]
          exact ha2 j2 (by omega)
      · right
        refine ⟨j + 1, by omega, ?_, ?_, ?_⟩
        · rw [hrec, show start + i + (j + 1) = start + (i + 1) + j from by omega]
          exact hj2
        · rw [show start + i + (j + 1) = start + (i + 1) + j from by omega]
          exact hj3
        · intro j2 hj2lt
          rcases j2 with _ | j3
          · rw [show start + i + 0 = start + i from rfl]
            exact hdue
          · rw [show start + i + (j3 + 1) = start + (i + 1) + j3 from by omega]
            exact hj4 j3 (by omega)
    · right
      refine ⟨0, by omega, ?_, ?_, fun j2 hj2 => absurd hj2 (by omega)⟩
      · simp only [findScanAux, hget, hb]
        rfl
      · rw [show start + i + 0 = start + i from rfl]
        exact hdue

lemma scanFrom_spec (pl : Playlist) (cur : DT) (g : Bool) (start : Nat)
    (hlen : 0 < pl.plugins.length)
    (hall : ∀ p ∈ pl.plugins, (p.should_refresh cur).isSome) :
    (scanFrom pl cur g start = some (none, pl)
      ∧ ∀ j, j < pl.plugins.length →
          dueAtB pl.plugins cur g ((start + j) % pl.plugins.length) = false)
    ∨ (∃ j, j < pl.plugins.length
        ∧ scanFrom pl cur g start = some (some ((start + j) % pl.plugins.length),
            { pl with current_plugin_index := some ((start + j) % pl.plugins.length) })
        ∧ dueAtB pl.plugins cur g ((start + j) % pl.plugins.length) = true
        ∧ ∀ j2, j2 < j →
            dueAtB pl.plugins cur g ((start + j2) % pl.plugins.length) = false) := by
  rcases findScanAux_spec pl.plugins cur g start hlen hall pl.plugins.length 0 with
    ⟨h1, h2⟩ | ⟨j, hj1, hj2, hj3, hj4⟩
  · left
    refine ⟨?_, ?_⟩
    · unfold scanFrom
      rw [h1]
    · intro j hj
      have hx := h2 j hj
      rw [show start + 0 + j = start + j from by omega] at hx
      exact hx
  · right
    refine ⟨j, hj1, ?_, ?_, ?_⟩
    · unfold scanFrom
      rw [hj2]
      rfl
    · have hx := hj3
      rw [show start + 0 + j = start + j from by omega] at hx
      exact hx
    · intro j2 hlt
      have hx := hj4 j2 hlt
      rw [show start + 0 + j2 = start + j2 from by omega] at hx
      exact hx

/-- C3: when no should_refresh call raises, find_plugin_to_refresh returns a
result (the found index and resulting playlist) such that: an empty playlist
gives none with the playlist unchanged; a set cursor whose plugin is due or
overridden is returned immediately with the cursor unchanged; a none result
leaves the playlist unchanged and means no index is due or overridden; any
returned index is due or overridden; when the cursor test did not fire, a
returned index is the first qualifying position of the forward scan from
(cursor+1) mod size (or 0 when the cursor is unset) and the cursor is set to
it; and when the cursor test fired the playlist is unchanged. -/
theorem C3_find_plugin_frame (pl : Playlist) (cur : DT) (g : Bool)
    (hall : ∀ p ∈ pl.plugins, (p.should_refresh cur).isSome) :
    ∃ r, pl.find_plugin_to_refresh cur g = some r
      ∧ (pl.plugins = [] → r = (none, pl))
      ∧ (∀ ci, pl.current_plugin_index = some ci → dueAtB pl.plugins cur g ci = true →
          r = (some ci, pl))
      ∧ (r.1 = none → r.2 = pl ∧ ∀ j, j < pl.plugins.length →
          dueAtB pl.plugins cur g j = false)
      ∧ (∀ idx, r.1 = some idx → dueAtB pl.plugins cur g idx = true)
      ∧ (cursorHitB pl cur g = false → ∀ idx, r.1 = some idx →
          r.2 = { pl with current_plugin_index := some idx }
          ∧ ∃ j, j < pl.plugins.length
              ∧ idx = (startScanIdx pl + j) % pl.plugins.length
              ∧ ∀ j2, j2 < j →
                  dueAtB pl.plugins cur g ((startScanIdx pl + j2) % pl.plugins.length) = false)
      ∧ (cursorHitB pl cur g = true → r.2 = pl) := by
  rcases pl with ⟨nm, st, et, ps, idx⟩
  rcases ps with _ | ⟨q, qs⟩
  · refine ⟨(none, ⟨nm, st, et, [], idx⟩), ?_, fun _ => rfl, ?_, ?_, ?_, ?_, ?_⟩
    · rcases idx with _ | ci <;> rfl
    · intro ci _ hdue
      simp [dueAtB] at hdue
    · exact fun _ => ⟨rfl, fun j hj => by simp at hj⟩
    · intro i h
      exact absurd h (by simp)
    · intro _ i h
      exact absurd h (by simp)
    · intro h
      rcases idx with _ | ci
      · rfl
      · rfl
  · have hlen : 0 < (q :: qs).length := by simp
    rcases idx with _ | ci
    · -- cursor unset: pure scan from 0
      have hfind : Playlist.find_plugin_to_refresh ⟨nm, st, et, q :: qs, none⟩ cur g
          = scanFrom ⟨nm, st, et, q :: qs, none⟩ cur g 0 := rfl
      rcases scanFrom_spec ⟨nm, st, et, q :: qs, none⟩ cur g 0 hlen hall with
        ⟨h1, h2⟩ | ⟨j, hj1, hj2, hj3, hj4⟩
      · refine ⟨(none, ⟨nm, st, et, q :: qs, none⟩), by rw [hfind]; exact h1,
          fun h => absurd h (by simp), ?_, ?_, ?_, ?_, ?_⟩
        · intro ci h
          exact absurd h (by simp)
        · intro _
          refine ⟨rfl, ?_⟩
          intro i hi
          obtain ⟨j, hj, hmod⟩ := mod_cover (q :: qs).length 0 i hlen hi
          rw [← hmod]
          exact h2 j hj
        · intro i h
          exact absurd h (by simp)
        · intro _ i h
          exact absurd h (by simp)
        · intro h
          simp [cursorHitB] at h
      · refine ⟨((some ((0 + j) % (q :: qs).length)),
          { name := nm, start_time := st, end_time := et, plugins := q :: qs,
            current_plugin_index := some ((0 + j) % (q :: qs).length) }),
          by rw [hfind]; exact hj2,
          fun h => absurd h (by simp), ?_, ?_, ?_, ?_, ?_⟩
        · intro ci h
          exact absurd h (by simp)
        · intro h
          exact absurd h (by simp)
        · intro i h
          injection h with he
          rw [← he]
          exact hj3
        · intro _ i h
          injection h with he
          refine ⟨by rw [← he], j, hj1, by rw [← he]; rfl, ?_⟩
          intro j2 hlt
          exact hj4 j2 hlt
        · intro h
          simp [cursorHitB] at h
    · -- cursor set
      rcases hget : (q :: qs)[ci]? with _ | p
      · -- invalid cursor: scan from ci + 1
        have hchit : cursorHitB ⟨nm, st, et, q :: qs, some ci⟩ cur g = false := by
          simp [cursorHitB, dueAtB, hget]
        have hfind : Playlist.find_plugin_to_refresh ⟨nm, st, et, q :: qs, some ci⟩ cur g
            = scanFrom ⟨nm, st, et, q :: qs, some ci⟩ cur g (ci + 1) := by
          simp only [Playlist.find_plugin_to_refresh, List.isEmpty_cons, hget]
          rw [if_neg (by simp)]
        rcases scanFrom_spec ⟨nm, st, et, q :: qs, some ci⟩ cur g (ci + 1) hlen hall with
          ⟨h1, h2⟩ | ⟨j, hj1, hj2, hj3, hj4⟩
        · refine ⟨(none, ⟨nm, st, et, q :: qs, some ci⟩), by rw [hfind]; exact h1,
            fun h => absurd h (by simp), ?_, ?_, ?_, ?_, ?_⟩
          · intro ci2 h hdue
            injection h with he
            rw [← he] at hdue
            simp [dueAtB, hget] at hdue
          · intro _
            refine ⟨rfl, ?_⟩
            intro i hi
            obtain ⟨j, hj, hmod⟩ := mod_cover (q :: qs).length (ci + 1) i hlen hi
            rw [← hmod]
            exact h2 j hj
          · intro i h
            exact absurd h (by simp)
          · intro _ i h
            exact absurd h (by simp)
          · intro h
            exact absurd (hchit.symm.trans h) (by simp)
        · refine ⟨((some ((ci + 1 + j) % (q :: qs).length)),
            { name := nm, start_time := st, end_time := et, plugins := q :: qs,
              current_plugin_index := some ((ci + 1 + j) % (q :: qs).length) }),
            by rw [hfind]; exact hj2,
            fun h => absurd h (by simp), ?_, ?_, ?_, ?_, ?_⟩
          · intro ci2 h hdue
            injection h with he
            rw [← he] at hdue
            simp [dueAtB, hget] at hdue
          · intro h
            exact absurd h (by simp)
          · intro i h
            injection h with he
            rw [← he]
            exact hj3
          · intro _ i h
            injection h with he
            refine ⟨by rw [← he], j, hj1, by rw [← he]; rfl, ?_⟩
            intro j2 hlt
            exact hj4 j2 hlt
          · intro h
            exact absurd (hchit.symm.trans h) (by simp)
      · -- valid cursor: test the plugin at the cursor first
        have hmem : p ∈ q :: qs := by
          obtain ⟨hlt, hp⟩ := List.getElem?_eq_some.mp hget
          rw [← hp]
          exact List.getElem_mem _
        have hsome : (orGlobal p cur g).isSome := by
          rw [orGlobal_isSome]
          exact hall _ hmem
        obtain ⟨b, hb⟩ := Option.isSome_iff_exists.mp hsome
        have hdueci : dueAtB (q :: qs) cur g ci = b := by
          simp only [dueAtB, hget, hb, Option.getD_some]
        cases b
        · -- cursor plugin not due: scan from ci + 1
          have hchit : cursorHitB ⟨nm, st, et, q :: qs, some ci⟩ cur g = false := by
            simp only [cursorHitB]
            exact hdueci
          have hfind : Playlist.find_plugin_to_refresh ⟨nm, st, et, q :: qs, some ci⟩ cur g
              = scanFrom ⟨nm, st, et, q :: qs, some ci⟩ cur g (ci + 1) := by
            simp only [Playlist.find_plugin_to_refresh, List.isEmpty_cons, hget, hb]
            rw [if_neg (by simp)]
          rcases scanFrom_spec ⟨nm, st, et, q :: qs, some ci⟩ cur g (ci + 1) hlen hall with
            ⟨h1, h2⟩ | ⟨j, hj1, hj2, hj3, hj4⟩
          · refine ⟨(none, ⟨nm, st, et, q :: qs, some ci⟩), by rw [hfind]; exact h1,
              fun h => absurd h (by simp), ?_, ?_, ?_, ?_, ?_⟩
            · intro ci2 h hdue
              injection h with he
              rw [← he] at hdue
              rw [hdueci] at hdue
              exact absurd hdue (by simp)
            · intro _
              refine ⟨rfl, ?_⟩
              intro i hi
              obtain ⟨j, hj, hmod⟩ := mod_cover (q :: qs).length (ci + 1) i hlen hi
              rw [← hmod]
              exact h2 j hj
            · intro i h
              exact absurd h (by simp)
            · intro _ i h
              exact absurd h (by simp)
            · intro h
              exact absurd (hchit.symm.trans h) (by simp)
          · refine ⟨((some ((ci + 1 + j) % (q :: qs).length)),
              { name := nm, start_time := st, end_time := et, plugins := q :: qs,
                current_plugin_index := some ((ci + 1 + j) % (q :: qs).length) }),
              by rw [hfind]; exact hj2,
              fun h => absurd h (by simp), ?_, ?_, ?_, ?_, ?_⟩
            · intro ci2 h hdue
              injection h with he
              rw [← he] at hdue
              rw [hdueci] at hdue
              exact absurd hdue (by simp)
            · intro h
              exact absurd h (by simp)
            · intro i h
              injection h with he
              rw [← he]
              exact hj3
            · intro _ i h
              injection h with he
              refine ⟨by rw [← he], j, hj1, by rw [← he]; rfl, ?_⟩
              intro j2 hlt
              exact hj4 j2 hlt
            · intro h
              exact absurd (hchit.symm.trans h) (by simp)
        · -- cursor plugin due or overridden: returned with the cursor unchanged
          have hchit : cursorHitB ⟨nm, st, et, q :: qs, some ci⟩ cur g = true := by
            simp only [cursorHitB]
            exact hdueci
          have hfind : Playlist.find_plugin_to_refresh ⟨nm, st, et, q :: qs, some ci⟩ cur g
              = some (some ci, ⟨nm, st, et, q :: qs, some ci⟩) := by
            simp only [Playlist.find_plugin_to_refresh, List.isEmpty_cons, hget, hb]
            rw [if_neg (by simp)]
          refine ⟨(some ci, ⟨nm, st, et, q :: qs, some ci⟩), hfind,
            fun h => absurd h (by simp), ?_, ?_, ?_, ?_, fun _ => rfl⟩
          · intro ci2 h _
            injection h with he
            rw [he]
          · intro h
            exact absurd h (by simp)
          · intro i h
            injection h with he
            rw [← he]
            exact hdueci
          · intro h
            exact absurd (hchit.symm.trans h) (by simp)

/-- C3 witness: on the three-plugin playlist with cursor 0 and only the middle
plugin due, the result exists and satisfies all frame conditions. -/
theorem C3_witness :
    ∃ r, plw3.find_plugin_to_refresh dtSmall false = some r
      ∧ (plw3.plugins = [] → r = (none, plw3))
      ∧ (∀ ci, plw3.current_plugin_index = some ci →
          dueAtB plw3.plugins dtSmall false ci = true → r = (some ci, plw3))
      ∧ (r.1 = none → r.2 = plw3 ∧ ∀ j, j < plw3.plugins.length →
          dueAtB plw3.plugins dtSmall false j = false)
      ∧ (∀ idx, r.1 = some idx → dueAtB plw3.plugins dtSmall false idx = true)
      ∧ (cursorHitB plw3 dtSmall false = false → ∀ idx, r.1 = some idx →
          r.2 = { plw3 with current_plugin_index := some idx }
          ∧ ∃ j, j < plw3.plugins.length
              ∧ idx = (startScanIdx plw3 + j) % plw3.plugins.length
              ∧ ∀ j2, j2 < j →
                  dueAtB plw3.plugins dtSmall false
                    ((startScanIdx plw3 + j2) % plw3.plugins.length) = false)
      ∧ (cursorHitB plw3 dtSmall false = true → r.2 = plw3) :=
  C3_find_plugin_frame plw3 dtSmall false (by decide)

end InkyPi
